import Mathlib

set_option linter.unusedVariables false

/-!
Verification development for the pulse2percept axon-map spatial model and
the Argus implant constructors.

The repository subset at hand contains the Argus implant constructors
(`pulse2percept/implants/argus.py`) verbatim; the axon-map spatial model,
its coordinate transforms (`watson2014.py`), its base-model state machine
and the visualization entry points are only declared or exercised by the
available files, so those components are modelled here from the written
specification (each such definition is marked `Modelled from the spec:`).
All real-valued quantities are embedded as rationals.
-/

namespace P2P

/-- A retinal or visual-field point, as an (x, y) pair of rationals. -/
abbrev Point : Type := ℚ × ℚ

/-- Negate the x-coordinate of a point (mirror about the vertical axis). -/
def mirrorX (p : Point) : Point := (-p.1, p.2)

/-! ## Coordinate transform (Watson 2014 style, modelled)

`watson2014.py` is imported by `models/__init__.py` but its body is not in
the available sources. -/

/-- Modelled from the spec: `watson2014.py` is missing from the sources.
The positive branch of the per-axis visual-angle-to-retinal-distance
magnification: a monotone, nonlinear (piecewise) map that is denser near
the fovea (larger micron-per-degree slope for small eccentricities). -/
def dva2retPos (d : ℚ) : ℚ :=
  if d ≤ 30 then 280 * d else 8400 + 200 * (d - 30)

/-- Modelled from the spec: per-axis visual angle (deg) to retinal
distance (um), applied sign-symmetrically about the fovea. -/
def dva2retAxis (d : ℚ) : ℚ :=
  if d < 0 then -(dva2retPos (-d)) else dva2retPos d

/-- Modelled from the spec: the positive branch of the analytic inverse of
`dva2retPos`. -/
def ret2dvaPos (u : ℚ) : ℚ :=
  if u ≤ 8400 then u / 280 else 30 + (u - 8400) / 200

/-- Modelled from the spec: per-axis retinal distance (um) back to visual
angle (deg), the analytic inverse of `dva2retAxis`. -/
def ret2dvaAxis (u : ℚ) : ℚ :=
  if u < 0 then -(ret2dvaPos (-u)) else ret2dvaPos u

/-- Modelled from the spec: `dva2ret` applies the magnification per axis
independently. -/
def dva2ret (p : Point) : Point := (dva2retAxis p.1, dva2retAxis p.2)

/-- Modelled from the spec: `ret2dva` applies the inverse per axis
independently. -/
def ret2dva (p : Point) : Point := (ret2dvaAxis p.1, ret2dvaAxis p.2)

lemma dva2retPos_nonneg (d : ℚ) (hd : 0 ≤ d) : 0 ≤ dva2retPos d := by
  unfold dva2retPos
  split <;> nlinarith

lemma dva2retPos_pos (d : ℚ) (hd : 0 < d) : 0 < dva2retPos d := by
  unfold dva2retPos
  split <;> nlinarith

lemma ret2dvaPos_dva2retPos (d : ℚ) (hd : 0 ≤ d) :
    ret2dvaPos (dva2retPos d) = d := by
  rcases le_or_lt d 30 with h | h
  · have hu : dva2retPos d = 280 * d := if_pos h
    rw [hu]
    unfold ret2dvaPos
    rw [if_pos (by nlinarith)]
    ring
  · have hu : dva2retPos d = 8400 + 200 * (d - 30) := if_neg (by linarith)
    rw [hu]
    unfold ret2dvaPos
    rw [if_neg (by nlinarith)]
    ring

lemma ret2dvaAxis_dva2retAxis (d : ℚ) : ret2dvaAxis (dva2retAxis d) = d := by
  rcases lt_or_le d 0 with h | h
  · have hu : dva2retAxis d = -(dva2retPos (-d)) := if_pos h
    have h2 : 0 < dva2retPos (-d) := dva2retPos_pos _ (by linarith)
    rw [hu]
    unfold ret2dvaAxis
    rw [if_pos (by linarith), neg_neg, ret2dvaPos_dva2retPos _ (by linarith)]
    ring
  · have hu : dva2retAxis d = dva2retPos d := if_neg (by linarith)
    have h2 : 0 ≤ dva2retPos d := dva2retPos_nonneg _ h
    rw [hu]
    unfold ret2dvaAxis
    rw [if_neg (by linarith)]
    exact ret2dvaPos_dva2retPos _ h

/-! ## Bundle geometry engine (modelled)

The axon-map bundle generator (`axon_map.py`) is only imported by the
available sources; it is modelled here from the specification. -/

/-- The eye in which the geometry is built. -/
inductive Eye : Type
  | RE : Eye
  | LE : Eye
deriving DecidableEq

/-- Modelled from the spec: the shape parameters of the parametric spiral
traced by each bundle (`spiral_params`): a curl coefficient coupling the
direction parameter to the radius, and a radial step scale. -/
structure SpiralParams : Type where
  curl : ℚ
  rstep : ℚ
deriving DecidableEq

/-- The x-component of the rational unit-circle direction with
tan-half-angle parameter `t`. -/
def dirX (t : ℚ) : ℚ := (1 - t ^ 2) / (1 + t ^ 2)

/-- The y-component of the rational unit-circle direction with
tan-half-angle parameter `t`. -/
def dirY (t : ℚ) : ℚ := 2 * t / (1 + t ^ 2)

/-- The sign applied to x-coordinates during generation: `-1` for the left
eye, `1` for the right eye. -/
def eyeSign : Eye → ℚ
  | Eye.RE => 1
  | Eye.LE => -1

/-- Modelled from the spec: one traced bundle point.  At step `k` the
bundle sits at radius `rstep * (k+1)` from the optic disc, in the
direction whose parameter has curled by `curl * radius` away from the
starting parameter `t0`; for the left eye the x-coordinate is negated
consistently at generation time. -/
def tracePoint (disc : Point) (eye : Eye) (sp : SpiralParams) (t0 : ℚ)
    (k : ℕ) : Point :=
  let r : ℚ := sp.rstep * ((k : ℚ) + 1)
  let t : ℚ := t0 + sp.curl * r
  (eyeSign eye * (disc.1 + r * dirX t), disc.2 + r * dirY t)

/-- Modelled from the spec: one bundle, stepped at `nPts` positions of
increasing radius from the optic disc outward. -/
def traceBundle (disc : Point) (eye : Eye) (sp : SpiralParams) (t0 : ℚ)
    (nPts : ℕ) : List Point :=
  (List.range nPts).map (tracePoint disc eye sp t0)

/-- Modelled from the spec: starting direction parameter of bundle `i` out
of `nB`.  Odd-indexed bundles grow into the upper hemisphere (positive
parameter), even-indexed ones into the lower hemisphere (negative
parameter), sampled separately so no bundle starts on the horizontal
meridian. -/
def startParam (nB i : ℕ) : ℚ :=
  (if i % 2 = 0 then -1 else 1) * ((i / 2 : ℕ) + 1) / ((nB : ℚ) + 1)

/-- Modelled from the spec: a compiled bundle geometry — the optic-disc
location actually used (x-mirrored for the left eye) together with the
list of traced bundle polylines. -/
structure Geometry : Type where
  disc : Point
  bundles : List (List Point)
deriving DecidableEq

/-- Modelled from the spec: the bundle geometry engine.  Generates `nB`
bundles of `nPts` points each around the optic disc; for the left eye
every x-coordinate (bundle points and disc) is negated. -/
def buildGeometry (disc : Point) (eye : Eye) (nB nPts : ℕ)
    (sp : SpiralParams) : Geometry :=
  { disc := (eyeSign eye * disc.1, disc.2)
    bundles := (List.range nB).map (fun i =>
      traceBundle disc eye sp (startParam nB i) nPts) }

/-- Negate every x-coordinate stored in a geometry (disc and bundle
points). -/
def mirrorGeometry (g : Geometry) : Geometry :=
  { disc := mirrorX g.disc
    bundles := g.bundles.map (List.map mirrorX) }

lemma tracePoint_LE (disc : Point) (sp : SpiralParams) (t0 : ℚ) (k : ℕ) :
    tracePoint disc Eye.LE sp t0 k = mirrorX (tracePoint disc Eye.RE sp t0 k) := by
  simp [tracePoint, mirrorX, eyeSign]

lemma traceBundle_LE (disc : Point) (sp : SpiralParams) (t0 : ℚ) (nPts : ℕ) :
    traceBundle disc Eye.LE sp t0 nPts =
      List.map mirrorX (traceBundle disc Eye.RE sp t0 nPts) := by
  simp only [traceBundle, List.map_map]
  exact List.map_congr_left (fun k _ => tracePoint_LE disc sp t0 k)

/-! ## Sensitivity field (modelled) -/

/-- Squared Euclidean distance between two points. -/
def distSq (p q : Point) : ℚ := (p.1 - q.1) ^ 2 + (p.2 - q.2) ^ 2

/-- Clamp a scalar to the closed interval [0, 1]. -/
def clamp01 (x : ℚ) : ℚ := max 0 (min 1 x)

/-- Modelled from the spec: the current-spread term as a function of the
squared distance `d2` between point and electrode — a decreasing function
of distance governed by the decay constant `rho`, equal to 1 at distance
0 and approaching 0 asymptotically. -/
def currentSpread (rho d2 : ℚ) : ℚ := rho ^ 2 / (rho ^ 2 + d2)

/-- Modelled from the spec: nearest point of a single bundle — the arc
index and squared distance of the bundle point closest to `p`, earlier
arc positions winning ties. -/
def nearestInBundle (p : Point) (b : List Point) : Option (ℕ × ℚ) :=
  b.enum.foldl
    (fun acc kq =>
      match acc with
      | none => some (kq.1, distSq p kq.2)
      | some best =>
          if distSq p kq.2 < best.2 then some (kq.1, distSq p kq.2) else acc)
    none

/-- Modelled from the spec: the BundleIndex query — nearest bundle id and
arc-length index for a query point, ties broken by the lowest bundle id. -/
def bundleAssign (g : Geometry) (p : Point) : Option (ℕ × ℕ) :=
  (g.bundles.enum.foldl
    (fun acc bi =>
      match nearestInBundle p bi.2 with
      | none => acc
      | some kd =>
          match acc with
          | none => some (bi.1, kd.1, kd.2)
          | some best => if kd.2 < best.2.2 then some (bi.1, kd.1, kd.2) else acc)
    none).map (fun r => (r.1, r.2.1))

/-- Modelled from the spec: the raw axonal-sensitivity integral — the sum,
over the bundle positions from the assigned arc index back toward the
optic disc, of a weight decaying with arc separation governed by
`axlambda`. -/
def axonSensRaw (axlambda : ℚ) (b : List Point) (k : ℕ) : ℚ :=
  ((List.range (k + 1)).map
    (fun i => axlambda ^ 2 /
      (axlambda ^ 2 + distSq (b.getD i (0, 0)) (b.getD k (0, 0))))).sum

/-- Modelled from the spec: the axonal-sensitivity term of a query point —
the raw integral along the assigned bundle, 0 when the geometry has no
bundle point. -/
def axonSens (axlambda : ℚ) (g : Geometry) (p : Point) : ℚ :=
  match bundleAssign g p with
  | none => 0
  | some a => axonSensRaw axlambda (g.bundles.getD a.1 []) a.2

/-- Modelled from the spec: the per-point, per-electrode weight — the
product of the current-spread and axonal-sensitivity terms, each clamped
to [0, 1] before combination. -/
def weight (g : Geometry) (rho axlambda : ℚ) (p e : Point) : ℚ :=
  clamp01 (currentSpread rho (distSq p e)) * clamp01 (axonSens axlambda g p)

lemma clamp01_nonneg (x : ℚ) : 0 ≤ clamp01 x := le_max_left 0 _

lemma clamp01_le_one (x : ℚ) : clamp01 x ≤ 1 :=
  max_le (by norm_num) (min_le_left 1 x)

lemma clamp01_mono {x y : ℚ} (h : x ≤ y) : clamp01 x ≤ clamp01 y :=
  max_le_max le_rfl (min_le_min le_rfl h)

lemma distSq_nonneg (p q : Point) : 0 ≤ distSq p q := by
  unfold distSq
  positivity

lemma currentSpread_antitone {rho a b : ℚ} (hrho : 0 < rho) (ha : 0 ≤ a)
    (hab : a ≤ b) : currentSpread rho b ≤ currentSpread rho a := by
  unfold currentSpread
  have h1 : 0 < rho ^ 2 + a := by positivity
  exact div_le_div_of_nonneg_left (by positivity) h1 (by linarith)

/-! ## Implant data consumed by the model -/

/-- A disk electrode: 3D position (um) and radius (um), as owned by the
implant collaborator (`implants/base.py`, consumed read-only here). -/
structure DiskElectrode : Type where
  x : ℚ
  y : ℚ
  z : ℚ
  r : ℚ
deriving DecidableEq

/-- An ordered mapping from electrode name to electrode, the shape of an
electrode array's ordered dictionary. -/
abbrev Earray : Type := List (String × DiskElectrode)

/-- The implant collaborator as consumed by the spatial model: an ordered
electrode mapping plus an eye designation. -/
structure Implant : Type where
  eye : Eye
  electrodes : Earray
deriving DecidableEq

/-- A stimulus frame: per-electrode scalar amplitudes at one instant. -/
abbrev StimFrame : Type := List (String × ℚ)

/-! ## Spatial model orchestrator (modelled) -/

/-- The error taxonomy of the model core. -/
inductive ModelError : Type
  | notBuilt : ModelError
  | valueError : ModelError
  | typeError : ModelError
deriving DecidableEq

/-- Modelled from the spec: the spatial-model state machine — `unbuilt`
before any successful build, `built` carrying the compiled geometry and
decay constants afterwards. -/
inductive SpatialModel : Type
  | unbuilt : SpatialModel
  | built (g : Geometry) (rho axlambda : ℚ) : SpatialModel
deriving DecidableEq

/-- The configuration surface of a build. -/
structure BuildParams : Type where
  locOd : Point
  eye : Eye
  nBundles : ℤ
  nPointsPerBundle : ℤ
  sp : SpiralParams
  rho : ℚ
  axlambda : ℚ
deriving DecidableEq

/-- Modelled from the spec: `build` validates the bundle counts (a
non-positive count is a `ValueError`, surfaced at build time) and then
compiles the bundle geometry. -/
def buildModel (ps : BuildParams) : Except ModelError SpatialModel :=
  if ps.nBundles ≤ 0 ∨ ps.nPointsPerBundle ≤ 0 then
    Except.error ModelError.valueError
  else
    Except.ok (SpatialModel.built
      (buildGeometry ps.locOd ps.eye ps.nBundles.toNat ps.nPointsPerBundle.toNat
        ps.sp)
      ps.rho ps.axlambda)

/-- Modelled from the spec: the brightness at one grid point — the sum of
`amplitude * weight` over the implant's electrodes. -/
def framePoint (g : Geometry) (rho axlambda : ℚ) (impl : Implant)
    (stim : StimFrame) (p : Point) : ℚ :=
  (impl.electrodes.map (fun ne =>
    ((stim.lookup ne.1).getD 0) * weight g rho axlambda p (ne.2.x, ne.2.y))).sum

/-- Modelled from the spec: `predict_frame` requires the `built` state and
computes the brightness map over the grid; in the `unbuilt` state it
fails with `NotBuiltError` and returns no partial result. -/
def predictFrame (m : SpatialModel) (impl : Implant) (stim : StimFrame)
    (grid : List Point) : Except ModelError (List ℚ) :=
  match m with
  | SpatialModel.unbuilt => Except.error ModelError.notBuilt
  | SpatialModel.built g rho axlambda =>
      Except.ok (grid.map (framePoint g rho axlambda impl stim))

/-! ## Visualization entry point (modelled) -/

/-- The argument actually passed to the implant-plotting entry point: a
proper implant, or some other collaborator such as a bare electrode. -/
inductive PlotCollaborator : Type
  | implant (sys : Implant) : PlotCollaborator
  | electrode (e : DiskElectrode) : PlotCollaborator
deriving DecidableEq

/-- Modelled from the spec: `plot_implant_on_axon_map` first type-checks
its collaborator (a bare electrode where an implant is expected is a
`TypeError`, surfaced immediately), then validates the bundle counts and
builds the geometry to draw. -/
def plotImplantOnAxonMap (arg : PlotCollaborator) (locOd : Point) (eye : Eye)
    (nBundles nPts : ℤ) (sp : SpiralParams) : Except ModelError Geometry :=
  match arg with
  | PlotCollaborator.electrode _ => Except.error ModelError.typeError
  | PlotCollaborator.implant _ =>
      if nBundles ≤ 0 ∨ nPts ≤ 0 then Except.error ModelError.valueError
      else Except.ok (buildGeometry locOd eye nBundles.toNat nPts.toNat sp)

/-! ## Argus implant constructors (`implants/argus.py`) -/

/-- The `eye` argument as passed from Python: either a string or a value
of some non-string type (capturing the `isinstance(eye, str)` check). -/
inductive EyeArg : Type
  | str (s : String) : EyeArg
  | notStr : EyeArg
deriving DecidableEq

/-- A single capital letter, `A` for 0, `B` for 1, and so on. -/
def letterStr (i : ℕ) : String := String.singleton (Char.ofNat (65 + i))

/-- Row-major electrode names of a grid.  With `letterFromCol` the letter
comes from the column and the number from the row (ArgusI: A1, B1, C1,
D1, A2, ...); otherwise the letter comes from the row and the number from
the column (ArgusII: A1, A2, ..., A10, B1, ...). -/
def gridNames (letterFromCol : Bool) (rows cols : ℕ) : List String :=
  (List.range rows).flatMap (fun i => (List.range cols).map (fun j =>
    if letterFromCol then letterStr j ++ toString (i + 1)
    else letterStr i ++ toString (j + 1)))

/-- Modelled from the spec: `ElectrodeGrid` from `implants/base.py` is not
among the available sources and the spec treats grid layout as an
external collaborator.  It places `rows * cols` disk electrodes row-major
on a regular grid of the given spacing centered at `(x, y)` at height
`z`, with the given per-electrode radii and names; the rotation argument
is carried but the rotated layout itself is outside the spec's scope. -/
def electrodeGrid (rows cols : ℕ) (x y z rot : ℚ) (radii : List ℚ)
    (spacing : ℚ) (names : List String) : Earray :=
  List.zip names ((List.range (rows * cols)).map (fun k =>
    { x := x + (((k % cols : ℕ) : ℚ) - ((cols : ℚ) - 1) / 2) * spacing +
          0 * rot
      y := y + (((k / cols : ℕ) : ℚ) - ((rows : ℚ) - 1) / 2) * spacing
      z := z
      r := radii.getD k 0 }))

/-- `OrderedDict.update` with a single key: replace the value in place if
the key is present, else append the new binding. -/
def odUpdate (d : Earray) (k : String) (v : DiskElectrode) : Earray :=
  if d.any (fun p => p.1 == k) then
    d.map (fun p => if p.1 == k then (k, v) else p)
  else d ++ [(k, v)]

/-- Build an `OrderedDict` by updating an empty dictionary with each pair
in turn, as the left-eye branch of the constructors does. -/
def odOfPairs (ps : Earray) : Earray :=
  ps.foldl (fun d p => odUpdate d p.1 p.2) []

/-- Split a list into `r` consecutive rows of `c` entries each (numpy
`reshape`). -/
def chunksN : ℕ → ℕ → List α → List (List α)
  | 0, _, _ => []
  | r + 1, c, l => l.take c :: chunksN r c (l.drop c)

/-- Reverse each row of a row-major `r × c` list (`names[row][::-1]` for
every row, then `ravel`). -/
def rowRev (r c : ℕ) (l : List α) : List α :=
  ((chunksN r c l).map List.reverse).flatten

/-- The left-eye fixup of `ArgusI.__init__`/`ArgusII.__init__`: take the
names and electrode objects of the array, reverse the column names within
each row, and rebuild the ordered dictionary by zipping the reversed
names with the objects in their original order. -/
def reverseColumnNames (rows cols : ℕ) (ea : Earray) : Earray :=
  let names := ea.map Prod.fst
  let objects := ea.map Prod.snd
  odOfPairs (List.zip (rowRev rows cols names) objects)

/-- An Argus prosthesis system: the eye designation and the (ordered)
electrode dictionary. -/
structure ArgusSystem : Type where
  eye : String
  earray : Earray
  stim : Option StimFrame
deriving DecidableEq

/-- The legacy (L/M) ArgusI electrode names, row-major. -/
def argusIOldNames : List String :=
  ["L6", "L2", "M8", "M4",
   "L5", "L1", "M7", "M3",
   "L8", "L4", "M6", "M2",
   "L7", "L3", "M5", "M1"]

/-- ArgusI electrode names for the given naming convention. -/
def argusINames (useLegacyNames : Bool) : List String :=
  if useLegacyNames then argusIOldNames else gridNames true 4 4

/-- The ArgusI checkerboard radii: `[260, 520, 260, 520] / 2` concatenated
with its reverse, twice over. -/
def argusIRadii : List ℚ :=
  [130, 260, 130, 260,
   260, 130, 260, 130,
   130, 260, 130, 260,
   260, 130, 260, 130]

/-- `ArgusI.__init__`: builds the 4x4 grid with 800 um spacing, validates
the `eye` argument (non-string is a `TypeError`, a string other than
`LE`/`RE` a `ValueError`), and for the left eye rebuilds the ordered
dictionary with the column names reversed within each row. -/
def argusI (x y z rot : ℚ) (eye : EyeArg) (stim : Option StimFrame)
    (useLegacyNames : Bool) : Except ModelError ArgusSystem :=
  let earray := electrodeGrid 4 4 x y z rot argusIRadii 800
    (argusINames useLegacyNames)
  match eye with
  | EyeArg.notStr => Except.error ModelError.typeError
  | EyeArg.str s =>
      if s ≠ "LE" ∧ s ≠ "RE" then Except.error ModelError.valueError
      else Except.ok
        { eye := s
          earray := if s = "LE" then reverseColumnNames 4 4 earray else earray
          stim := stim }

/-- `ArgusII.__init__`: builds the 6x10 grid of 100 um electrodes with
525 um spacing, validates the `eye` argument exactly as ArgusI does, and
for the left eye rebuilds the ordered dictionary with the column names
reversed within each row. -/
def argusII (x y z rot : ℚ) (eye : EyeArg) (stim : Option StimFrame) :
    Except ModelError ArgusSystem :=
  let earray := electrodeGrid 6 10 x y z rot (List.replicate 60 100) 525
    (gridNames false 6 10)
  match eye with
  | EyeArg.notStr => Except.error ModelError.typeError
  | EyeArg.str s =>
      if s ≠ "LE" ∧ s ≠ "RE" then Except.error ModelError.valueError
      else Except.ok
        { eye := s
          earray := if s = "LE" then reverseColumnNames 6 10 earray else earray
          stim := stim }

/-- The electrode dictionary of a successful construction (empty on
error). -/
def earrayOf (res : Except ModelError ArgusSystem) : Earray :=
  match res with
  | Except.ok m => m.earray
  | Except.error _ => []

/-! ## Ordered-dictionary and row-reversal lemmas -/

lemma odUpdate_of_fresh (d : Earray) (k : String) (v : DiskElectrode)
    (h : ∀ q ∈ d, q.1 ≠ k) : odUpdate d k v = d ++ [(k, v)] := by
  unfold odUpdate
  rw [if_neg]
  simp only [List.any_eq_true, beq_iff_eq, not_exists]
  intro q hq
  exact h q hq.1 hq.2

lemma odOfPairs_foldl (ps : Earray) : ∀ (acc : Earray),
    (ps.map Prod.fst).Nodup → (∀ p ∈ ps, ∀ q ∈ acc, q.1 ≠ p.1) →
    ps.foldl (fun d p => odUpdate d p.1 p.2) acc = acc ++ ps := by
  induction ps with
  | nil => intro acc _ _; simp
  | cons p rest ih =>
      intro acc hnd hdisj
      have h1 : odUpdate acc p.1 p.2 = acc ++ [(p.1, p.2)] :=
        odUpdate_of_fresh acc p.1 p.2
          (fun q hq => hdisj p (List.mem_cons_self p rest) q hq)
      simp only [List.foldl_cons, h1]
      rw [ih (acc ++ [(p.1, p.2)]) (by simpa using hnd.of_cons)]
      · simp
      · intro r hr q hq
        rcases List.mem_append.mp hq with hq | hq
        · exact hdisj r (List.mem_cons_of_mem p hr) q hq
        · simp only [List.mem_singleton] at hq
          subst hq
          simp only [List.map_cons, List.nodup_cons, List.mem_map] at hnd
          exact fun he => hnd.1 ⟨r, hr, he.symm⟩

lemma odOfPairs_of_nodup (ps : Earray) (hnd : (ps.map Prod.fst).Nodup) :
    odOfPairs ps = ps := by
  unfold odOfPairs
  rw [odOfPairs_foldl ps [] hnd (by simp)]
  simp

lemma chunksN_flatten (r : ℕ) : ∀ (c : ℕ) (l : List α),
    l.length = r * c → (chunksN r c l).flatten = l := by
  induction r with
  | zero =>
      intro c l hl
      simp only [Nat.zero_mul] at hl
      rw [List.length_eq_zero] at hl
      subst hl
      rfl
  | succ r ih =>
      intro c l hl
      have hd : (l.drop c).length = r * c := by
        simp only [List.length_drop, hl, Nat.succ_mul]
        omega
      simp only [chunksN, List.flatten_cons, ih c (l.drop c) hd,
        List.take_append_drop]

lemma flatten_map_reverse_perm (L : List (List α)) :
    (L.map List.reverse).flatten.Perm L.flatten := by
  induction L with
  | nil => rfl
  | cons a rest ih =>
      simp only [List.map_cons, List.flatten_cons]
      exact List.Perm.append (List.reverse_perm a) ih

lemma rowRev_perm (r c : ℕ) (l : List α) (h : l.length = r * c) :
    (rowRev r c l).Perm l := by
  unfold rowRev
  exact (flatten_map_reverse_perm _).trans
    (by rw [chunksN_flatten r c l h])

lemma rowRev_length (r c : ℕ) (l : List α) (h : l.length = r * c) :
    (rowRev r c l).length = l.length :=
  (rowRev_perm r c l h).length_eq

lemma reverseColumnNames_zip (rows cols : ℕ) (names : List String)
    (objs : List DiskElectrode) (hnd : names.Nodup)
    (hlen : names.length = rows * cols) (hlen2 : objs.length = names.length) :
    reverseColumnNames rows cols (List.zip names objs) =
      List.zip (rowRev rows cols names) objs := by
  unfold reverseColumnNames
  rw [List.map_fst_zip names objs (by omega),
    List.map_snd_zip names objs (by omega)]
  apply odOfPairs_of_nodup
  rw [List.map_fst_zip (rowRev rows cols names) objs
    (by rw [rowRev_length rows cols names hlen]; omega)]
  exact ((rowRev_perm rows cols names hlen).nodup_iff).mpr hnd

/-! ## Claim theorems -/

/-- Claim C1: for every fixed optic-disc location, bundle counts and
spiral parameters, the bundle geometry built for the left eye equals the
geometry built for the right eye with every x-coordinate negated (bundle
points and the stored optic-disc location): the two configurations are
exact x-mirror images. -/
theorem bundle_geometry_eye_mirror (disc : Point) (nB nPts : ℕ)
    (sp : SpiralParams) :
    buildGeometry disc Eye.LE nB nPts sp =
      mirrorGeometry (buildGeometry disc Eye.RE nB nPts sp) := by
  simp only [buildGeometry, mirrorGeometry, List.map_map, Geometry.mk.injEq]
  refine ⟨?_, ?_⟩
  · simp [mirrorX, eyeSign]
  · exact List.map_congr_left
      (fun i _ => traceBundle_LE disc sp (startParam nB i) nPts)

/-- Claim C2: for every point within the physiological field of view, the
coordinate transforms are mutually inverse — `ret2dva (dva2ret p) = p`
holds exactly in the rational model, hence within any tolerance. -/
theorem ret2dva_dva2ret_roundtrip (p : Point)
    (h : |p.1| ≤ 90 ∧ |p.2| ≤ 90) : ret2dva (dva2ret p) = p := by
  unfold ret2dva dva2ret
  simp [ret2dvaAxis_dva2retAxis]

theorem ret2dva_dva2ret_roundtrip_witness :
    |(31 / 2 : ℚ)| ≤ 90 ∧ |(3 / 2 : ℚ)| ≤ 90 ∧
      ret2dva (dva2ret (31 / 2, 3 / 2)) = ((31 / 2 : ℚ), (3 / 2 : ℚ)) :=
  ⟨by rw [abs_le]; norm_num, by rw [abs_le]; norm_num,
    ret2dva_dva2ret_roundtrip (31 / 2, 3 / 2)
      ⟨by rw [abs_le]; norm_num, by rw [abs_le]; norm_num⟩⟩

/-- Claim C3: for every geometry, decay constants, point and electrode,
the combined weight lies in the closed interval [0, 1]: both the
current-spread and axonal-sensitivity terms are clamped to [0, 1] before
being combined, and their product stays in [0, 1]. -/
theorem weight_in_unit_interval (g : Geometry) (rho axlambda : ℚ)
    (p e : Point) :
    0 ≤ weight g rho axlambda p e ∧ weight g rho axlambda p e ≤ 1 := by
  unfold weight
  refine ⟨mul_nonneg (clamp01_nonneg _) (clamp01_nonneg _), ?_⟩
  exact mul_le_one₀ (clamp01_le_one _) (clamp01_nonneg _) (clamp01_le_one _)

/-- Claim C4: the current-spread term equals 1 at distance 0, is never
negative, and approaches 0 asymptotically; and for a fixed bundle
assignment of the query point, the weight is monotonically non-increasing
in the (squared, hence ordinary) Euclidean distance from the electrode. -/
theorem weight_monotone_in_distance (g : Geometry) (rho axlambda : ℚ)
    (e : Point) (hrho : 0 < rho) :
    currentSpread rho 0 = 1 ∧
    (∀ d2 : ℚ, 0 ≤ d2 → 0 ≤ currentSpread rho d2) ∧
    (∀ ε : ℚ, 0 < ε → ∃ D : ℚ, ∀ d2 : ℚ, D ≤ d2 →
      currentSpread rho d2 < ε) ∧
    (∀ p1 p2 : Point, bundleAssign g p1 = bundleAssign g p2 →
      distSq p1 e ≤ distSq p2 e →
      weight g rho axlambda p2 e ≤ weight g rho axlambda p1 e) := by
  refine ⟨?_, ?_, ?_, ?_⟩
  · unfold currentSpread
    rw [add_zero]
    exact div_self (by positivity)
  · intro d2 hd2
    exact div_nonneg (by positivity) (by positivity)
  · intro ε hε
    refine ⟨rho ^ 2 / ε + 1, fun d2 hd2 => ?_⟩
    have hd2pos : 0 < d2 := lt_of_lt_of_le (by positivity) hd2
    have hden : 0 < rho ^ 2 + d2 := by positivity
    unfold currentSpread
    rw [div_lt_iff₀ hden]
    have hkey : ε * (rho ^ 2 / ε) = rho ^ 2 := by field_simp
    nlinarith [mul_le_mul_of_nonneg_left hd2 (le_of_lt hε)]
  · intro p1 p2 hassign hdist
    unfold weight
    have haxeq : axonSens axlambda g p1 = axonSens axlambda g p2 := by
      unfold axonSens
      rw [hassign]
    rw [haxeq]
    apply mul_le_mul_of_nonneg_right
    · exact clamp01_mono
        (currentSpread_antitone hrho (distSq_nonneg p1 e) hdist)
    · exact clamp01_nonneg _

theorem weight_monotone_in_distance_witness :
    (0 : ℚ) < 1 ∧
      weight ⟨(0, 0), [[(1, 0)]]⟩ 1 1 (3, 0) (0, 0) ≤
        weight ⟨(0, 0), [[(1, 0)]]⟩ 1 1 (2, 0) (0, 0) :=
  ⟨by norm_num,
    (weight_monotone_in_distance ⟨(0, 0), [[(1, 0)]]⟩ 1 1 (0, 0)
      (by norm_num)).2.2.2 (2, 0) (3, 0)
      (by simp [bundleAssign, nearestInBundle])
      (by unfold distSq; norm_num)⟩

/-- Claim C5: for every implant, stimulus frame and grid, calling
`predict_frame` on a model in the `unbuilt` state fails with
`NotBuiltError` and returns no brightness map. -/
theorem predictFrame_unbuilt_raises (impl : Implant) (stim : StimFrame)
    (grid : List Point) :
    predictFrame SpatialModel.unbuilt impl stim grid =
      Except.error ModelError.notBuilt := rfl

/-- Claim C6: for every configuration, `build` with a non-positive bundle
count or a non-positive point count fails with `ValueError`, surfaced at
build time. -/
theorem buildModel_nonpositive_counts_raise (ps : BuildParams)
    (h : ps.nBundles ≤ 0 ∨ ps.nPointsPerBundle ≤ 0) :
    buildModel ps = Except.error ModelError.valueError := by
  unfold buildModel
  rw [if_pos h]

theorem buildModel_nonpositive_counts_raise_witness :
    ((0 : ℤ) ≤ 0 ∨ (5 : ℤ) ≤ 0) ∧
      buildModel ⟨(31 / 2, 3 / 2), Eye.RE, 0, 5, ⟨1, 1⟩, 1, 1⟩ =
        Except.error ModelError.valueError :=
  ⟨Or.inl le_rfl,
    buildModel_nonpositive_counts_raise ⟨(31 / 2, 3 / 2), Eye.RE, 0, 5, ⟨1, 1⟩, 1, 1⟩
      (Or.inl le_rfl)⟩

/-- Claim C7: for a fixed configuration and fixed stimulus frame, any two
models obtained from independent successful builds of that configuration
produce identical brightness maps — the computation is deterministic. -/
theorem predictFrame_deterministic (ps : BuildParams) (impl : Implant)
    (stim : StimFrame) (grid : List Point) (m1 m2 : SpatialModel)
    (h1 : buildModel ps = Except.ok m1) (h2 : buildModel ps = Except.ok m2) :
    predictFrame m1 impl stim grid = predictFrame m2 impl stim grid := by
  rw [h1] at h2
  injection h2 with h3
  rw [h3]

theorem predictFrame_deterministic_witness :
    predictFrame (SpatialModel.built (buildGeometry (2, 1) Eye.RE 1 1 ⟨1, 1⟩) 1 1)
        ⟨Eye.RE, []⟩ [] [] =
      predictFrame (SpatialModel.built (buildGeometry (2, 1) Eye.RE 1 1 ⟨1, 1⟩) 1 1)
        ⟨Eye.RE, []⟩ [] [] :=
  predictFrame_deterministic ⟨(2, 1), Eye.RE, 1, 1, ⟨1, 1⟩, 1, 1⟩ ⟨Eye.RE, []⟩ [] []
    _ _ rfl rfl

/-- Claim C8: passing a collaborator that is not an implant — for example
a bare electrode — to the implant-plotting entry point fails with
`TypeError` immediately, for every such mistyped argument. -/
theorem plot_wrong_collaborator_raises (arg : PlotCollaborator)
    (locOd : Point) (eye : Eye) (nB nPts : ℤ) (sp : SpiralParams)
    (h : ∀ sys, arg ≠ PlotCollaborator.implant sys) :
    plotImplantOnAxonMap arg locOd eye nB nPts sp =
      Except.error ModelError.typeError := by
  cases arg with
  | implant sys => exact absurd rfl (h sys)
  | electrode e => rfl

theorem plot_wrong_collaborator_raises_witness :
    plotImplantOnAxonMap (PlotCollaborator.electrode ⟨0, 0, 0, 100⟩)
        (31 / 2, 3 / 2) Eye.RE 100 5 ⟨1, 1⟩ =
      Except.error ModelError.typeError :=
  plot_wrong_collaborator_raises _ _ _ _ _ _
    (fun sys h => PlotCollaborator.noConfusion h)

lemma argusI_LE_earray (x y z rot : ℚ) (stim : Option StimFrame)
    (leg : Bool) :
    earrayOf (argusI x y z rot (EyeArg.str ("LE")) stim leg) =
      reverseColumnNames 4 4
        (electrodeGrid 4 4 x y z rot argusIRadii 800 (argusINames leg)) := by
  simp [argusI, earrayOf]

lemma argusI_RE_earray (x y z rot : ℚ) (stim : Option StimFrame)
    (leg : Bool) :
    earrayOf (argusI x y z rot (EyeArg.str ("RE")) stim leg) =
      electrodeGrid 4 4 x y z rot argusIRadii 800 (argusINames leg) := by
  simp [argusI, earrayOf]

lemma argusII_LE_earray (x y z rot : ℚ) (stim : Option StimFrame) :
    earrayOf (argusII x y z rot (EyeArg.str ("LE")) stim) =
      reverseColumnNames 6 10
        (electrodeGrid 6 10 x y z rot (List.replicate 60 100) 525
          (gridNames false 6 10)) := by
  simp [argusII, earrayOf]

lemma argusII_RE_earray (x y z rot : ℚ) (stim : Option StimFrame) :
    earrayOf (argusII x y z rot (EyeArg.str ("RE")) stim) =
      electrodeGrid 6 10 x y z rot (List.replicate 60 100) 525
        (gridNames false 6 10) := by
  simp [argusII, earrayOf]

lemma argusINames_nodup (leg : Bool) : (argusINames leg).Nodup := by
  cases leg <;> decide

lemma argusINames_length (leg : Bool) : (argusINames leg).length = 16 := by
  cases leg <;> rfl

lemma gridNames610_length : (gridNames false 6 10).length = 60 := rfl

lemma earray_pair_mirror (rows cols : ℕ) (names : List String)
    (objs : List DiskElectrode) (hnd : names.Nodup)
    (hlen : names.length = rows * cols) (hlen2 : objs.length = names.length) :
    (reverseColumnNames rows cols (List.zip names objs)).map Prod.snd =
        (List.zip names objs).map Prod.snd ∧
      (reverseColumnNames rows cols (List.zip names objs)).map Prod.fst =
        rowRev rows cols ((List.zip names objs).map Prod.fst) ∧
      ((reverseColumnNames rows cols (List.zip names objs)).map
        Prod.fst).Perm ((List.zip names objs).map Prod.fst) := by
  have hrl : (rowRev rows cols names).length = names.length :=
    rowRev_length rows cols names hlen
  rw [reverseColumnNames_zip rows cols names objs hnd hlen hlen2,
    List.map_fst_zip names objs (by omega),
    List.map_snd_zip names objs (by omega),
    List.map_fst_zip (rowRev rows cols names) objs (by omega),
    List.map_snd_zip (rowRev rows cols names) objs (by omega)]
  exact ⟨rfl, rfl, rowRev_perm rows cols names hlen⟩

/-- Claim C9: for every value of the other constructor arguments, the
ArgusI and ArgusII constructors fail with `TypeError` when the `eye`
argument is not a string, fail with `ValueError` when it is a string
other than `LE`/`RE`, and succeed exactly for `LE` and `RE`. -/
theorem argus_eye_validation :
    (∀ (x y z rot : ℚ) (stim : Option StimFrame) (leg : Bool),
      argusI x y z rot EyeArg.notStr stim leg =
        Except.error ModelError.typeError) ∧
    (∀ (x y z rot : ℚ) (stim : Option StimFrame) (leg : Bool) (s : String),
      s ≠ "LE" → s ≠ "RE" →
      argusI x y z rot (EyeArg.str s) stim leg =
        Except.error ModelError.valueError) ∧
    (∀ (x y z rot : ℚ) (stim : Option StimFrame) (leg : Bool) (s : String),
      s = "LE" ∨ s = "RE" →
      ∃ m, argusI x y z rot (EyeArg.str s) stim leg = Except.ok m) ∧
    (∀ (x y z rot : ℚ) (stim : Option StimFrame),
      argusII x y z rot EyeArg.notStr stim =
        Except.error ModelError.typeError) ∧
    (∀ (x y z rot : ℚ) (stim : Option StimFrame) (s : String),
      s ≠ "LE" → s ≠ "RE" →
      argusII x y z rot (EyeArg.str s) stim =
        Except.error ModelError.valueError) ∧
    (∀ (x y z rot : ℚ) (stim : Option StimFrame) (s : String),
      s = "LE" ∨ s = "RE" →
      ∃ m, argusII x y z rot (EyeArg.str s) stim = Except.ok m) := by
  refine ⟨?_, ?_, ?_, ?_, ?_, ?_⟩
  · intro x y z rot stim leg
    rfl
  · intro x y z rot stim leg s h1 h2
    simp only [argusI]
    rw [if_pos ⟨h1, h2⟩]
  · intro x y z rot stim leg s hs
    rcases hs with rfl | rfl
    · exact ⟨_, rfl⟩
    · exact ⟨_, rfl⟩
  · intro x y z rot stim
    rfl
  · intro x y z rot stim s h1 h2
    simp only [argusII]
    rw [if_pos ⟨h1, h2⟩]
  · intro x y z rot stim s hs
    rcases hs with rfl | rfl
    · exact ⟨_, rfl⟩
    · exact ⟨_, rfl⟩

theorem argus_eye_validation_witness :
    ("foo" ≠ "LE") ∧ ("foo" ≠ "RE") ∧
      argusI 0 0 0 0 (EyeArg.str ("foo")) none false =
        Except.error ModelError.valueError :=
  ⟨by decide, by decide,
    argus_eye_validation.2.1 0 0 0 0 none false ("foo") (by decide) (by decide)⟩

/-- Claim C10: for `eye = 'LE'` the Argus constructors only rebuild the
name-to-electrode association by reversing the column names within each
row: the i-th electrode object of the rebuilt ordered dictionary
coincides with the i-th electrode object of the `eye = 'RE'` construction
with the same arguments, the electrode names are merely reordered within
rows, and the set of names is preserved as a permutation. -/
theorem argus_left_eye_reindexing (x y z rot : ℚ) (stim : Option StimFrame)
    (leg : Bool) :
    ((earrayOf (argusI x y z rot (EyeArg.str ("LE")) stim leg)).map
        Prod.snd =
      (earrayOf (argusI x y z rot (EyeArg.str ("RE")) stim leg)).map
        Prod.snd ∧
    (earrayOf (argusI x y z rot (EyeArg.str ("LE")) stim leg)).map
        Prod.fst =
      rowRev 4 4
        ((earrayOf (argusI x y z rot (EyeArg.str ("RE")) stim leg)).map
          Prod.fst) ∧
    ((earrayOf (argusI x y z rot (EyeArg.str ("LE")) stim leg)).map
        Prod.fst).Perm
      ((earrayOf (argusI x y z rot (EyeArg.str ("RE")) stim leg)).map
        Prod.fst)) ∧
    ((earrayOf (argusII x y z rot (EyeArg.str ("LE")) stim)).map Prod.snd =
      (earrayOf (argusII x y z rot (EyeArg.str ("RE")) stim)).map Prod.snd ∧
    (earrayOf (argusII x y z rot (EyeArg.str ("LE")) stim)).map Prod.fst =
      rowRev 6 10
        ((earrayOf (argusII x y z rot (EyeArg.str ("RE")) stim)).map
          Prod.fst) ∧
    ((earrayOf (argusII x y z rot (EyeArg.str ("LE")) stim)).map
        Prod.fst).Perm
      ((earrayOf (argusII x y z rot (EyeArg.str ("RE")) stim)).map
        Prod.fst)) := by
  rw [argusI_LE_earray, argusI_RE_earray, argusII_LE_earray,
    argusII_RE_earray]
  constructor
  · exact earray_pair_mirror 4 4 (argusINames leg) _ (argusINames_nodup leg)
      (argusINames_length leg) (by simp [argusINames_length])
  · exact earray_pair_mirror 6 10 (gridNames false 6 10) _ (by decide)
      gridNames610_length (by simp [gridNames610_length])

end P2P
